import Mathlib

/-!
Verification of the gogs-cli issue aggregation subsystem.

This file gives a shallow embedding of the relevant parts of the Rust
source (`src/gogs-cli/src`) and proves or refutes the frozen claims
about it.  Machine strings are modelled as Lean `String` (Rust `String`
comparison is byte-lexicographic on UTF-8, which coincides with the
codepoint-lexicographic order used by Lean); Rust `i64` values that the
claims never overflow are modelled as `Int`.
-/

namespace Goggles

/-! ### Data model (src/gogs-cli/src/api/types.rs) -/

/-- `User` from api/types.rs. -/
structure User where
  id : Int
  username : String
  full_name : Option String
  email : Option String
deriving DecidableEq, Repr

/-- `Label` from api/types.rs. -/
structure Label where
  id : Int
  name : String
  color : String
deriving DecidableEq, Repr

/-- `Issue` from api/types.rs. -/
structure Issue where
  id : Int
  number : Int
  title : String
  body : Option String
  user : User
  labels : List Label
  state : String
  comments : Int
  created_at : String
  updated_at : String
  html_url : String
deriving DecidableEq, Repr

/-- `Repository` from api/types.rs.  The Rust field `private` is renamed
`is_private` (Lean keyword). -/
structure Repository where
  id : Int
  name : String
  full_name : String
  owner : User
  description : Option String
  is_private : Bool
  html_url : String
  clone_url : String
deriving DecidableEq, Repr

/-- `Profile` from config.rs. -/
structure Profile where
  gogs_user : String
  token : String
  role : String
  signature : String
deriving DecidableEq, Repr

/-! ### ASCII case-insensitive string comparison

Rust's `str::eq_ignore_ascii_case` compares the two strings byte by byte
after ASCII-lowercasing each byte.  Since ASCII uppercase letters are
single-byte codepoints, this is the same as comparing the strings after
mapping every character through ASCII lowercasing. -/

/-- ASCII lowercasing of one character (`u8::to_ascii_lowercase`):
characters `A`-`Z` are shifted by 32, everything else is unchanged. -/
def asciiLowerChar (c : Char) : Char :=
  if 'A' ≤ c ∧ c ≤ 'Z' then Char.ofNat (c.toNat + 32) else c

/-- ASCII lowercasing of a whole string. -/
def lowercaseAscii (s : String) : String :=
  String.mk (s.data.map asciiLowerChar)

/-- `str::eq_ignore_ascii_case`, modelled as equality after ASCII
lowercasing. -/
def eqIgnoreAsciiCase (a b : String) : Bool :=
  lowercaseAscii a == lowercaseAscii b

/-! ### Label filtering (commands/issue.rs, lines 117-124 and 154-161)

Both `handle_list_all` and `handle_list_repo` run, verbatim:

    if !labels.is_empty() {
        issues.retain(|issue| {
            labels.iter().any(|label| {
                issue.labels.iter().any(|l| l.name.eq_ignore_ascii_case(label))
            })
        });
    }
-/

/-- The label filter applied by `issue list` (identical text in
`handle_list_all` and `handle_list_repo`). -/
def filterByLabels (labels : List String) (issues : List Issue) : List Issue :=
  if labels.isEmpty then issues
  else issues.filter (fun issue =>
    labels.any (fun lab => issue.labels.any (fun l => eqIgnoreAsciiCase l.name lab)))

/-! ### Fan-out aggregation (commands/issue.rs, `handle_list_all`)

`handle_list_all` enumerates repositories once, spawns one task per
repository returning `(full_name, result)`, awaits the handles in spawn
order, pushes filtered issue lists for successes, prints one warning per
failure, and finally sorts by repository full name
(`all_issues.sort_by(|a, b| a.0.cmp(&b.0))`). -/

/-- Result of one spawned task as observed by the collection loop:
`Ok((name, Ok(issues)))`, `Ok((name, Err(e)))` (transport or decode
failure inside `list_issues`), or `Err(e)` (the task itself failed). -/
inductive TaskOutcome where
  | ok (issues : List Issue)
  | fetchErr (msg : String)
  | taskErr (msg : String)
deriving DecidableEq, Repr

/-- Whether a task outcome is one of the two failure forms. -/
def TaskOutcome.isFailure : TaskOutcome → Bool
  | TaskOutcome.ok _ => false
  | TaskOutcome.fetchErr _ => true
  | TaskOutcome.taskErr _ => true

/-- One warning line printed with `eprintln!` in the collection loop
(lines 127-132 of commands/issue.rs). -/
inductive Warning where
  | fetchFailed (repoName msg : String)
  | taskFailed (msg : String)
deriving DecidableEq, Repr

/-- The `(full_name, result)` pairs produced by the spawned tasks, in
spawn order (lines 96-110); the network behaviour is modelled as a
function from the repository to its task outcome. -/
def spawnTasks (repos : List Repository) (outcome : Repository → TaskOutcome) :
    List (String × TaskOutcome) :=
  repos.map (fun r => (r.full_name, outcome r))

/-- Collection loop (lines 113-134): for each awaited task in order, push
the (label-filtered) issues on success, or record exactly one warning on
failure.  Returns `(all_issues, warnings)`. -/
def collectResults (labels : List String) (tasks : List (String × TaskOutcome)) :
    List (String × List Issue) × List Warning :=
  match tasks with
  | [] => ([], [])
  | (name, TaskOutcome.ok issues) :: rest =>
      let r := collectResults labels rest
      ((name, filterByLabels labels issues) :: r.1, r.2)
  | (name, TaskOutcome.fetchErr e) :: rest =>
      let r := collectResults labels rest
      (r.1, Warning.fetchFailed name e :: r.2)
  | (_, TaskOutcome.taskErr e) :: rest =>
      let r := collectResults labels rest
      (r.1, Warning.taskFailed e :: r.2)

/-- `all_issues.sort_by(|a, b| a.0.cmp(&b.0))` (line 137): a stable sort
by repository full name. -/
def sortByName (xs : List (String × List Issue)) : List (String × List Issue) :=
  xs.mergeSort (fun a b => decide (a.1 ≤ b.1))

/-- The pure core of `handle_list_all` after a successful enumeration:
the merged, sorted entries together with the warnings. -/
def aggregate (labels : List String) (repos : List Repository)
    (outcome : Repository → TaskOutcome) :
    List (String × List Issue) × List Warning :=
  let c := collectResults labels (spawnTasks repos outcome)
  (sortByName c.1, c.2)

/-- `handle_list_all` including the enumeration step (line 92,
`client.list_user_repos().await?`): an enumeration failure aborts the
whole command; otherwise the command succeeds with the aggregate. -/
def handleListAll (labels : List String)
    (enumeration : Except String (List Repository))
    (outcome : Repository → TaskOutcome) :
    Except String (List (String × List Issue) × List Warning) :=
  match enumeration with
  | Except.error e => Except.error e
  | Except.ok repos => Except.ok (aggregate labels repos outcome)

/-! #### The join barrier

The spawned tasks complete in an arbitrary order, but the `for handle in
handles` loop awaits them in spawn order.  We model the completed tasks
as a list in completion order, tagged with their spawn index, and the
join as reading them back by index 0, 1, 2, ... -/

/-- The spawned tasks tagged with their spawn index. -/
def indexedTasks (repos : List Repository) (outcome : Repository → TaskOutcome) :
    List (Nat × (String × TaskOutcome)) :=
  (spawnTasks repos outcome).enum

/-- The join loop awaits handle 0, then handle 1, ...: from the bag of
completed tasks (in arbitrary completion order) it reads the results
back in spawn order. -/
def awaitInOrder (completed : List (Nat × (String × TaskOutcome))) (n : Nat) :
    List (String × TaskOutcome) :=
  (List.range n).filterMap
    (fun i => (completed.find? (fun p => p.1 == i)).map Prod.snd)

/-- `handle_list_all` as a function of the completion-ordered task
results. -/
def listAllFromCompletion (labels : List String) (repos : List Repository)
    (completed : List (Nat × (String × TaskOutcome))) :
    List (String × List Issue) × List Warning :=
  let c := collectResults labels (awaitInOrder completed repos.length)
  (sortByName c.1, c.2)

/-! ### Presentation layer (src/gogs-cli/src/output.rs)

`format_issue_list` dispatches on the output format.  The human
format is modelled to the exact string; for the JSON format the
repository's own code builds the flattened `Vec<IssueWithRepo>` and
hands it to the external library serde_json, so the JSON rendering is
modelled up to that flattened array. -/

/-- `OutputFormat` from output.rs. -/
inductive OutputFormat where
  | human
  | json
deriving DecidableEq, Repr

/-- Left-aligned padding to a minimum width, as in the Rust format
specifier. -/
def padRight (s : String) (w : Nat) : String :=
  s ++ String.mk (List.replicate (w - s.length) ' ')

/-- The bracketed label list appended to an issue line
(output.rs lines 36-45). -/
def labelsPart (labels : List Label) : String :=
  if labels.isEmpty then ""
  else " " ++ String.intercalate " " (labels.map (fun l => "[" ++ l.name ++ "]"))

/-- One issue line in the human format (output.rs lines 47-50). -/
def issueLine (issue : Issue) : String :=
  "  #" ++ padRight (toString issue.number) 4 ++ " [" ++ issue.state ++ "]"
    ++ labelsPart issue.labels ++ " " ++ issue.title ++ "\n"

/-- One step of the accumulation loop in `format_issues_human`
(output.rs lines 30-53): the state is (output, total, repo_count); an
entry with an empty issue list contributes nothing. -/
def humanFoldStep (acc : String × Nat × Nat) (p : String × List Issue) :
    String × Nat × Nat :=
  if p.2.isEmpty then acc
  else (acc.1 ++ "\n" ++ p.1 ++ "\n" ++ String.join (p.2.map issueLine),
        acc.2.1 + p.2.length, acc.2.2 + 1)

/-- `format_issues_human` (output.rs lines 25-66). -/
def formatIssuesHuman (issues : List (String × List Issue)) : String :=
  let r := issues.foldl humanFoldStep ("", 0, 0)
  if r.2.1 = 0 then r.1 ++ "\nNo issues found.\n"
  else r.1 ++ "\nTotal: " ++ toString r.2.1 ++ " issue(s) across "
    ++ toString r.2.2 ++ " repo(s)\n"

/-- The flattened `Vec<IssueWithRepo>` built by `format_issues_json`
(output.rs lines 76-84); each element pairs the owning repository's full
name with the issue. -/
def flattenForJson (issues : List (String × List Issue)) : List (String × Issue) :=
  issues.flatMap (fun p => p.2.map (fun i => (p.1, i)))

/-- The rendering of an aggregation result: the exact human text, or the
flattened array handed to the JSON serialiser. -/
inductive Rendered where
  | human (text : String)
  | json (array : List (String × Issue))
deriving DecidableEq, Repr

/-- `format_issue_list` (output.rs lines 18-23). -/
def formatIssueList (issues : List (String × List Issue)) (format : OutputFormat) :
    Rendered :=
  match format with
  | OutputFormat.human => Rendered.human (formatIssuesHuman issues)
  | OutputFormat.json => Rendered.json (flattenForJson issues)

/-- The output produced by `handle_list_repo` (commands/issue.rs lines
144-167) once the fetch returned `issues`: apply the label filter, then
render the one-element list `[(owner/repo, issues)]` through
`format_issue_list`. -/
def handleListRepoRender (owner repoName : String) (labels : List String)
    (issues : List Issue) (format : OutputFormat) : Rendered :=
  formatIssueList [(owner ++ "/" ++ repoName, filterByLabels labels issues)] format

/-! ### Signature augmentation (commands/issue.rs, `handle_create` lines
193-201 and `handle_comment` lines 217-223) -/

/-- The body transformation of `handle_create`:

    let body_with_sig = match body {
        Some(b) => format!("{} {}", profile.signature, b),
        None => profile.signature.clone(),
    };
-/
def augmentSignature (signature : String) (body : Option String) : String :=
  match body with
  | some b => signature ++ " " ++ b
  | none => signature

/-- The payload `handle_create` passes to `create_issue`. -/
structure CreateIssuePayload where
  title : String
  body : Option String
  labels : List String
deriving DecidableEq, Repr

/-- `handle_create`: the title and labels are forwarded unchanged, the
body is the signature-augmented body (always `Some`). -/
def handleCreatePayload (profile : Profile) (title : String) (body : Option String)
    (labels : List String) : CreateIssuePayload :=
  { title := title
    body := some (augmentSignature profile.signature body)
    labels := labels }

/-- `handle_comment`: `format!("{} {}", profile.signature, text)`. -/
def handleCommentBody (profile : Profile) (text : String) : String :=
  profile.signature ++ " " ++ text

/-! ### Label resolution (commands/issue.rs, `handle_add_label` lines
245-271 and `handle_remove_label` lines 273-299) -/

/-- A mutating API call issued by the label commands. -/
inductive MutCall where
  | addLabels (owner repo : String) (number : Int) (labelIds : List Int)
  | removeLabel (owner repo : String) (number : Int) (labelId : Int)
deriving DecidableEq, Repr

/-- `repo_labels.iter().find(|l| l.name.eq_ignore_ascii_case(label_name))`. -/
def findLabel (repoLabels : List Label) (labelName : String) : Option Label :=
  repoLabels.find? (fun l => eqIgnoreAsciiCase l.name labelName)

/-- `handle_add_label` after `list_repo_labels` returned `repoLabels`:
the command result paired with the trace of mutating calls issued. -/
def handleAddLabel (repoLabels : List Label) (owner repo : String) (number : Int)
    (labelName : String) : Except String Unit × List MutCall :=
  match findLabel repoLabels labelName with
  | some l => (Except.ok (), [MutCall.addLabels owner repo number [l.id]])
  | none => (Except.error ("Label '" ++ labelName ++ "' not found in repository"), [])

/-- `handle_remove_label` after `list_repo_labels` returned `repoLabels`. -/
def handleRemoveLabel (repoLabels : List Label) (owner repo : String) (number : Int)
    (labelName : String) : Except String Unit × List MutCall :=
  match findLabel repoLabels labelName with
  | some l => (Except.ok (), [MutCall.removeLabel owner repo number l.id])
  | none => (Except.error ("Label '" ++ labelName ++ "' not found in repository"), [])

/-! ### Errors and the process exit code (error.rs and main.rs) -/

/-- `GogsError` from error.rs.  The payloads of the two `#[from]`
variants are modelled by their message text. -/
inductive GogsError where
  | apiError (msg : String)
  | authError (msg : String)
  | notFound (msg : String)
  | configError (msg : String)
  | validationError (msg : String)
  | networkError (msg : String)
  | jsonError (msg : String)
deriving DecidableEq, Repr

/-- `GogsError::exit_code` (error.rs lines 27-34). -/
def GogsError.exit_code : GogsError → Int
  | GogsError.notFound _ => 2
  | _ => 1

/-- The thiserror `Display` message of each variant (error.rs). -/
def errorMessage : GogsError → String
  | GogsError.apiError m => "API error: " ++ m
  | GogsError.authError m => "Authentication failed: " ++ m
  | GogsError.notFound m => "Resource not found: " ++ m
  | GogsError.configError m => "Configuration error: " ++ m
  | GogsError.validationError m => "Validation error: " ++ m
  | GogsError.networkError m => "Network error: " ++ m
  | GogsError.jsonError m => "JSON error: " ++ m

/-- `main` (main.rs lines 14-25): given the result of `run` (on success
carrying the text the handlers printed to stdout), produce
`(exit code, stdout, stderr)`.  `Ok` maps to `ExitCode::SUCCESS` (0);
every `Err` prints one `Error: ...` line to stderr and maps to
`ExitCode::FAILURE` (1). -/
def mainRun (result : Except GogsError String) : Nat × String × String :=
  match result with
  | Except.ok out => (0, out, "")
  | Except.error e => (1, "", "Error: " ++ errorMessage e ++ "\n")

/-! ### Repository argument parsing (config.rs lines 90-105) -/

/-- Rust's `str::split('/')` on the character list: every occurrence of
the separator splits, and empty pieces are kept (splitting the empty
string yields one empty piece). -/
def splitChar (sep : Char) : List Char → List (List Char)
  | [] => [[]]
  | c :: rest =>
    if c = sep then [] :: splitChar sep rest
    else
      match splitChar sep rest with
      | [] => [[c]]
      | p :: ps => (c :: p) :: ps

/-- `repo.split('/').collect::<Vec<_>>()`. -/
def splitOnSlash (s : String) : List String :=
  (splitChar '/' s.data).map String.mk

/-- `parse_repo` (config.rs lines 99-105): accept exactly two parts. -/
def parseRepo (s : String) : Except String (String × String) :=
  match splitOnSlash s with
  | [a, b] => Except.ok (a, b)
  | _ => Except.error ("Invalid repository format. Expected 'owner/repo', got '" ++ s ++ "'")

/-- `Config::get_repo` (config.rs lines 90-96): explicit `--repo`
argument, else the configured default, else an error; the chosen string
goes through `parse_repo`. -/
def getRepo (defaultRepo : Option String) (repoArg : Option String) :
    Except String (String × String) :=
  match repoArg.or defaultRepo with
  | some s => parseRepo s
  | none => Except.error
      "Repository not specified. Use --repo owner/name or set defaults.repo in config"

/-! ### Sample data used by witnesses and counterexamples -/

def userA : User :=
  { id := 1, username := "alice", full_name := none, email := none }

def labelBug : Label := { id := 10, name := "Bug", color := "ff0000" }

def labelDocs : Label := { id := 11, name := "docs", color := "00ff00" }

def issueDocs : Issue :=
  { id := 100, number := 1, title := "write docs", body := none, user := userA,
    labels := [labelDocs], state := "open", comments := 0, created_at := "",
    updated_at := "", html_url := "" }

def repoA : Repository :=
  { id := 1, name := "r", full_name := "a/r", owner := userA, description := none,
    is_private := false, html_url := "", clone_url := "" }

def repoB : Repository :=
  { id := 2, name := "r", full_name := "b/r", owner := userA, description := none,
    is_private := false, html_url := "", clone_url := "" }

def outcomeAllEmpty : Repository → TaskOutcome := fun _ => TaskOutcome.ok []

def outcomeFailB : Repository → TaskOutcome :=
  fun r => if r.id = 2 then TaskOutcome.fetchErr "boom" else TaskOutcome.ok []

/-! ## Theorems -/

/-! ### Helper lemmas -/

theorem eqIgnoreAsciiCase_iff (a b : String) :
    eqIgnoreAsciiCase a b = true ↔ lowercaseAscii a = lowercaseAscii b := by
  simp [eqIgnoreAsciiCase]

theorem filterByLabels_pred (F : List String) (I : List Issue) (hF : F ≠ []) :
    filterByLabels F I = I.filter (fun issue =>
      decide (∃ f ∈ F, ∃ l ∈ issue.labels, lowercaseAscii l.name = lowercaseAscii f)) := by
  have hFe : F.isEmpty = false := by simp [List.isEmpty_iff, hF]
  unfold filterByLabels
  simp only [hFe, Bool.false_eq_true, if_false]
  apply List.filter_congr
  intro issue _
  rw [Bool.eq_iff_iff]
  simp [List.any_eq_true, eqIgnoreAsciiCase_iff, decide_eq_true_eq]

theorem collectResults_fst (labels : List String)
    (tasks : List (String × TaskOutcome)) :
    (collectResults labels tasks).1 = tasks.filterMap (fun t =>
      match t.2 with
      | TaskOutcome.ok issues => some (t.1, filterByLabels labels issues)
      | TaskOutcome.fetchErr _ => none
      | TaskOutcome.taskErr _ => none) := by
  induction tasks with
  | nil => rfl
  | cons t rest ih =>
    obtain ⟨name, o⟩ := t
    cases o <;> simp [collectResults, ih, List.filterMap_cons]

theorem collectResults_snd (labels : List String)
    (tasks : List (String × TaskOutcome)) :
    (collectResults labels tasks).2 = tasks.filterMap (fun t =>
      match t.2 with
      | TaskOutcome.ok _ => none
      | TaskOutcome.fetchErr e => some (Warning.fetchFailed t.1 e)
      | TaskOutcome.taskErr e => some (Warning.taskFailed e)) := by
  induction tasks with
  | nil => rfl
  | cons t rest ih =>
    obtain ⟨name, o⟩ := t
    cases o <;> simp [collectResults, ih, List.filterMap_cons]

theorem sortByName_perm (xs : List (String × List Issue)) :
    (sortByName xs).Perm xs :=
  List.mergeSort_perm xs _

theorem sortByName_sorted (xs : List (String × List Issue)) :
    (sortByName xs).Pairwise (fun a b => a.1 ≤ b.1) := by
  have h := @List.sorted_mergeSort (String × List Issue)
    (fun a b => decide (a.1 ≤ b.1))
    (fun a b c h₁ h₂ => by
      simp only [decide_eq_true_eq] at h₁ h₂ ⊢
      exact le_trans h₁ h₂)
    (fun a b => by
      simp only [Bool.or_eq_true, decide_eq_true_eq]
      exact le_total a.1 b.1)
    xs
  exact h.imp (fun hab => by simpa using hab)

theorem aggregate_fst (labels : List String) (repos : List Repository)
    (outcome : Repository → TaskOutcome) :
    (aggregate labels repos outcome).1
      = sortByName (repos.filterMap (fun rep =>
          match outcome rep with
          | TaskOutcome.ok issues => some (rep.full_name, filterByLabels labels issues)
          | TaskOutcome.fetchErr _ => none
          | TaskOutcome.taskErr _ => none)) := by
  show sortByName (collectResults labels (spawnTasks repos outcome)).1 = _
  rw [collectResults_fst]
  unfold spawnTasks
  rw [List.filterMap_map]
  rfl

theorem aggregate_snd (labels : List String) (repos : List Repository)
    (outcome : Repository → TaskOutcome) :
    (aggregate labels repos outcome).2
      = repos.filterMap (fun rep =>
          match outcome rep with
          | TaskOutcome.ok _ => none
          | TaskOutcome.fetchErr e => some (Warning.fetchFailed rep.full_name e)
          | TaskOutcome.taskErr e => some (Warning.taskFailed e)) := by
  show (collectResults labels (spawnTasks repos outcome)).2 = _
  rw [collectResults_snd]
  unfold spawnTasks
  rw [List.filterMap_map]
  rfl

theorem find?_key_of_perm {β : Type} {l₁ l₂ : List (Nat × β)}
    (h : l₁.Perm l₂) (hnd : (l₂.map Prod.fst).Nodup) (i : Nat) :
    l₁.find? (fun p => p.1 == i) = l₂.find? (fun p => p.1 == i) := by
  induction h with
  | nil => rfl
  | cons x p ih =>
    simp only [List.map_cons, List.nodup_cons] at hnd
    by_cases hx : x.1 == i <;> simp [List.find?_cons, hx, ih hnd.2]
  | swap x y l =>
    simp only [List.map_cons, List.nodup_cons, List.mem_cons] at hnd
    by_cases hx : x.1 == i <;> by_cases hy : y.1 == i <;>
      simp_all [List.find?_cons]
  | trans p₁ p₂ ih₁ ih₂ =>
    have hnd' : _ := ((p₂.map Prod.fst).nodup_iff).2 hnd
    rw [ih₁ hnd', ih₂ hnd]

theorem find?_enumFrom {β : Type} (l : List β) (k i : Nat) (hk : k ≤ i) :
    (l.enumFrom k).find? (fun p => p.1 == i) = (l[i - k]?).map (fun b => (i, b)) := by
  induction l generalizing k with
  | nil => simp [List.enumFrom]
  | cons b bs ih =>
    by_cases hki : k = i
    · subst hki
      simp [List.enumFrom, List.find?_cons]
    · have hk1 : k + 1 ≤ i := by omega
      have hne : (k == i) = false := by simp [hki]
      have hik : i - k = (i - (k + 1)) + 1 := by omega
      simp only [List.enumFrom, List.find?_cons, hne]
      rw [ih (k + 1) hk1, hik, List.getElem?_cons_succ]

theorem range_filterMap_getElem? {β : Type} (l : List β) :
    (List.range l.length).filterMap (fun i => l[i]?) = l := by
  induction l with
  | nil => simp
  | cons b bs ih =>
    rw [List.length_cons, List.range_succ_eq_map]
    simp only [List.filterMap_cons, List.getElem?_cons_zero, List.filterMap_map]
    simp only [Function.comp_def, List.getElem?_cons_succ]
    rw [ih]

theorem awaitInOrder_perm_enum (l : List (String × TaskOutcome))
    (completed : List (Nat × (String × TaskOutcome)))
    (h : completed.Perm l.enum) :
    awaitInOrder completed l.length = l := by
  have hnd : (l.enum.map Prod.fst).Nodup := by
    rw [List.enum_map_fst]
    exact List.nodup_range _
  unfold awaitInOrder
  have hfind : ∀ i : Nat,
      completed.find? (fun p => p.1 == i) = (l[i]?).map (fun b => (i, b)) := by
    intro i
    rw [find?_key_of_perm h hnd i]
    have := find?_enumFrom l 0 i (Nat.zero_le i)
    simpa [List.enum] using this
  have hfun : (fun i => (completed.find? (fun p => p.1 == i)).map Prod.snd)
      = (fun i => l[i]?) := by
    funext i
    rw [hfind i]
    cases l[i]? <;> rfl
  rw [hfun, range_filterMap_getElem?]

theorem listAllFromCompletion_eq_aggregate (labels : List String)
    (repos : List Repository) (outcome : Repository → TaskOutcome)
    (completed : List (Nat × (String × TaskOutcome)))
    (h : completed.Perm (indexedTasks repos outcome)) :
    listAllFromCompletion labels repos completed = aggregate labels repos outcome := by
  have hlen : (spawnTasks repos outcome).length = repos.length := by
    simp [spawnTasks]
  unfold listAllFromCompletion aggregate
  rw [← hlen, awaitInOrder_perm_enum (spawnTasks repos outcome) completed h]

theorem filterMap_middle_none {α β : Type} (f : α → Option β) (l₁ l₂ : List α)
    (a : α) (ha : f a = none) :
    (l₁ ++ a :: l₂).filterMap f = (l₁ ++ l₂).filterMap f := by
  simp [List.filterMap_append, List.filterMap_cons, ha]

theorem filterMap_middle_some {α β : Type} (f : α → Option β) (l₁ l₂ : List α)
    (a : α) (b : β) (ha : f a = some b) :
    (l₁ ++ a :: l₂).filterMap f = l₁.filterMap f ++ b :: l₂.filterMap f := by
  simp [List.filterMap_append, List.filterMap_cons, ha]

theorem flattenForJson_name_mem {x : String} {xs : List (String × List Issue)}
    (h : x ∈ (flattenForJson xs).map Prod.fst) : x ∈ xs.map Prod.fst := by
  simp only [flattenForJson, List.mem_map, List.mem_flatMap] at h ⊢
  obtain ⟨⟨n, i⟩, ⟨p, hp, hni⟩, hfst⟩ := h
  obtain ⟨j, _, hj⟩ := hni
  cases hj
  exact ⟨p, hp, hfst⟩

/-! ### Claim C1 -/

/-- C1: the label filtering applied by `issue list` retains exactly the
issues having at least one label `l` and at least one filter term `f`
with `lowercase(l.name) = lowercase(f)`; when the filter list is empty,
filtering is the identity. -/
theorem c1_label_filter (F : List String) (I : List Issue) :
    filterByLabels F I =
      (if F = [] then I
       else I.filter (fun issue =>
         decide (∃ f ∈ F, ∃ l ∈ issue.labels,
           lowercaseAscii l.name = lowercaseAscii f))) := by
  by_cases hF : F = []
  · simp [filterByLabels, hF]
  · rw [if_neg hF]
    exact filterByLabels_pred F I hF

/-! ### Claim C2 -/

/-- C2: for every repository enumeration and assignment of
per-repository outcomes, the merged fan-out result is sorted
lexicographically by repository full name, and two runs with the same
inputs but different task completion orders produce identical output. -/
theorem c2_fanout_deterministic (labels : List String) (repos : List Repository)
    (outcome : Repository → TaskOutcome)
    (c₁ c₂ : List (Nat × (String × TaskOutcome)))
    (h₁ : c₁.Perm (indexedTasks repos outcome))
    (h₂ : c₂.Perm (indexedTasks repos outcome)) :
    listAllFromCompletion labels repos c₁ = listAllFromCompletion labels repos c₂ ∧
    (listAllFromCompletion labels repos c₁).1.Pairwise (fun a b => a.1 ≤ b.1) := by
  rw [listAllFromCompletion_eq_aggregate labels repos outcome c₁ h₁,
      listAllFromCompletion_eq_aggregate labels repos outcome c₂ h₂]
  exact ⟨rfl, sortByName_sorted _⟩

/-- Witness for C2 at a concrete input: two completion orders of the
same two tasks. -/
theorem c2_fanout_deterministic_witness :
    listAllFromCompletion [] [repoA, repoB]
        [(1, ("b/r", TaskOutcome.ok [])), (0, ("a/r", TaskOutcome.ok []))]
      = listAllFromCompletion [] [repoA, repoB]
        [(0, ("a/r", TaskOutcome.ok [])), (1, ("b/r", TaskOutcome.ok []))] ∧
    (listAllFromCompletion [] [repoA, repoB]
        [(1, ("b/r", TaskOutcome.ok [])), (0, ("a/r", TaskOutcome.ok []))]).1.Pairwise
      (fun a b => a.1 ≤ b.1) :=
  c2_fanout_deterministic [] [repoA, repoB] outcomeAllEmpty
    [(1, ("b/r", TaskOutcome.ok [])), (0, ("a/r", TaskOutcome.ok []))]
    [(0, ("a/r", TaskOutcome.ok [])), (1, ("b/r", TaskOutcome.ok []))]
    (by decide) (by decide)

/-! ### Claim C3 -/

/-- C3: a repository whose fetch task fails contributes zero entries to
the merged result (in particular its full name is absent from the
entries and from the flattened JSON array), does not alter any other
repository's entries (the merged entries equal those of the run without
it), adds exactly one warning on the error channel, and the whole
operation fails only if the initial enumeration fails. -/
theorem c3_failed_repo_isolated (labels : List String) (repos : List Repository)
    (outcome : Repository → TaskOutcome) (r : Repository) (e : String)
    (hr : r ∈ repos)
    (hnd : (repos.map Repository.full_name).Nodup)
    (hfail : (outcome r).isFailure = true) :
    r.full_name ∉ ((aggregate labels repos outcome).1.map Prod.fst) ∧
    r.full_name ∉ ((flattenForJson (aggregate labels repos outcome).1).map Prod.fst) ∧
    (aggregate labels repos outcome).1 = (aggregate labels (repos.erase r) outcome).1 ∧
    (aggregate labels repos outcome).2.length
      = (aggregate labels (repos.erase r) outcome).2.length + 1 ∧
    handleListAll labels (Except.error e) outcome = Except.error e ∧
    handleListAll labels (Except.ok repos) outcome
      = Except.ok (aggregate labels repos outcome) := by
  have hFr : (match outcome r with
      | TaskOutcome.ok issues => some (r.full_name, filterByLabels labels issues)
      | TaskOutcome.fetchErr _ => none
      | TaskOutcome.taskErr _ => none) = (none : Option (String × List Issue)) := by
    cases ho : outcome r with
    | ok issues =>
      rw [ho] at hfail
      simp [TaskOutcome.isFailure] at hfail
    | fetchErr m => rfl
    | taskErr m => rfl
  obtain ⟨l₁, l₂, hnl₁, hdecomp, herase⟩ := List.exists_erase_eq hr
  have hmem_names : r.full_name ∉ ((aggregate labels repos outcome).1.map Prod.fst) := by
    rw [aggregate_fst]
    intro hmem
    have hcoll : r.full_name ∈ (repos.filterMap (fun rep =>
        match outcome rep with
        | TaskOutcome.ok issues => some (rep.full_name, filterByLabels labels issues)
        | TaskOutcome.fetchErr _ => none
        | TaskOutcome.taskErr _ => none)).map Prod.fst :=
      (((sortByName_perm _).map Prod.fst).mem_iff).1 hmem
    obtain ⟨entry, hent, hfst⟩ := List.mem_map.1 hcoll
    obtain ⟨rep, hrep, hFrep⟩ := List.mem_filterMap.1 hent
    cases ho : outcome rep with
    | ok issues =>
      simp only [ho] at hFrep
      rw [Option.some.injEq] at hFrep
      have hname : rep.full_name = r.full_name := by
        rw [← hFrep] at hfst
        exact hfst
      have heq : rep = r := List.inj_on_of_nodup_map hnd hrep hr hname
      rw [heq] at ho
      rw [ho] at hfail
      simp [TaskOutcome.isFailure] at hfail
    | fetchErr m =>
      simp only [ho] at hFrep
      exact Option.noConfusion hFrep
    | taskErr m =>
      simp only [ho] at hFrep
      exact Option.noConfusion hFrep
  refine ⟨hmem_names, ?_, ?_, ?_, rfl, rfl⟩
  · intro hmem
    exact hmem_names (flattenForJson_name_mem hmem)
  · rw [aggregate_fst, aggregate_fst, herase, hdecomp]
    exact congrArg sortByName (filterMap_middle_none _ l₁ l₂ r hFr)
  · rw [aggregate_snd, aggregate_snd, herase, hdecomp]
    cases ho : outcome r with
    | ok issues =>
      rw [ho] at hfail
      simp [TaskOutcome.isFailure] at hfail
    | fetchErr m =>
      rw [filterMap_middle_some _ l₁ l₂ r (Warning.fetchFailed r.full_name m)
        (by simp [ho])]
      simp [List.length_append]
      omega
    | taskErr m =>
      rw [filterMap_middle_some _ l₁ l₂ r (Warning.taskFailed m) (by simp [ho])]
      simp [List.length_append]
      omega

/-- Witness for C3 at a concrete input: two repositories, where the
fetch of `b/r` fails. -/
theorem c3_failed_repo_isolated_witness :
    "b/r" ∉ ((aggregate [] [repoA, repoB] outcomeFailB).1.map Prod.fst) ∧
    "b/r" ∉ ((flattenForJson (aggregate [] [repoA, repoB] outcomeFailB).1).map Prod.fst) ∧
    (aggregate [] [repoA, repoB] outcomeFailB).1
      = (aggregate [] ([repoA, repoB].erase repoB) outcomeFailB).1 ∧
    (aggregate [] [repoA, repoB] outcomeFailB).2.length
      = (aggregate [] ([repoA, repoB].erase repoB) outcomeFailB).2.length + 1 ∧
    handleListAll [] (Except.error "enumeration failed") outcomeFailB
      = Except.error "enumeration failed" ∧
    handleListAll [] (Except.ok [repoA, repoB]) outcomeFailB
      = Except.ok (aggregate [] [repoA, repoB] outcomeFailB) :=
  c3_failed_repo_isolated [] [repoA, repoB] outcomeFailB repoB "enumeration failed"
    (by decide) (by decide) (by decide)

/-! ### Claim C4

The claim says repositories left with zero issues after filtering are
dropped from the merged `AggregationResult` itself.  The code
(commands/issue.rs line 125) pushes the pair unconditionally after the
`retain`, so an empty entry stays in the merged result; it is only the
renderers that hide it. -/

/-- C4 counterexample: with filter `["bug"]` and a single repository
whose only issue carries only the label `docs`, the filtered issue list
is empty, yet the merged result still contains the `("a/r", [])` pair. -/
theorem c4_counterexample :
    filterByLabels ["bug"] [issueDocs] = [] ∧
    (aggregate ["bug"] [repoA] (fun _ => TaskOutcome.ok [issueDocs])).1
      = [("a/r", [])] ∧
    "a/r" ∈ ((aggregate ["bug"] [repoA]
        (fun _ => TaskOutcome.ok [issueDocs])).1.map Prod.fst) := by
  have h1 : filterByLabels ["bug"] [issueDocs] = [] := by decide
  have h2 : (aggregate ["bug"] [repoA] (fun _ => TaskOutcome.ok [issueDocs])).1
      = sortByName [("a/r", filterByLabels ["bug"] [issueDocs])] := rfl
  rw [h1] at h2
  have h3 : sortByName [("a/r", ([] : List Issue))] = [("a/r", [])] := by
    simp [sortByName]
  rw [h3] at h2
  exact ⟨h1, h2, by rw [h2]; simp⟩

/-- C4 amended: a repository whose issue list is empty after filtering
is NOT dropped from the merged `AggregationResult` — it remains as a
`(fullName, [])` pair — but it contributes nothing to either rendering:
the human renderer skips empty entries and the JSON flattening
contributes no array elements for them. -/
theorem c4_amended_empty_repos_kept (labels : List String) (repos : List Repository)
    (outcome : Repository → TaskOutcome) (r : Repository) (issues : List Issue)
    (xs ys : List (String × List Issue)) (n : String)
    (hr : r ∈ repos) (hok : outcome r = TaskOutcome.ok issues)
    (hempty : filterByLabels labels issues = []) :
    (r.full_name, ([] : List Issue)) ∈ (aggregate labels repos outcome).1 ∧
    formatIssuesHuman (xs ++ (n, ([] : List Issue)) :: ys) = formatIssuesHuman (xs ++ ys) ∧
    flattenForJson (xs ++ (n, ([] : List Issue)) :: ys) = flattenForJson (xs ++ ys) := by
  refine ⟨?_, ?_, ?_⟩
  · rw [aggregate_fst]
    have hmem : (r.full_name, filterByLabels labels issues) ∈ repos.filterMap (fun rep =>
        match outcome rep with
        | TaskOutcome.ok issues => some (rep.full_name, filterByLabels labels issues)
        | TaskOutcome.fetchErr _ => none
        | TaskOutcome.taskErr _ => none) :=
      List.mem_filterMap.2 ⟨r, hr, by simp [hok]⟩
    rw [hempty] at hmem
    exact ((sortByName_perm _).mem_iff).2 hmem
  · simp [formatIssuesHuman, humanFoldStep, List.foldl_append]
  · simp [flattenForJson]

/-- Witness for the amended C4 at a concrete input. -/
theorem c4_amended_witness :
    (repoA.full_name, ([] : List Issue))
      ∈ (aggregate ["bug"] [repoA] (fun _ => TaskOutcome.ok [issueDocs])).1 ∧
    formatIssuesHuman ([] ++ ("x", ([] : List Issue)) :: []) = formatIssuesHuman ([] ++ []) ∧
    flattenForJson ([] ++ ("x", ([] : List Issue)) :: []) = flattenForJson ([] ++ []) :=
  c4_amended_empty_repos_kept ["bug"] [repoA] (fun _ => TaskOutcome.ok [issueDocs])
    repoA [issueDocs] [] [] "x" (by decide) rfl (by decide)

/-! ### Claim C5 -/

/-- C5: signature augmentation satisfies `augment(sig, None) = sig` and
`augment(sig, Some(b)) = sig + " " + b`; `handle_create` applies it
exactly once to the body (and never to the title or the labels),
`handle_comment` applies it exactly once to the comment text, and the
transformation is not idempotent: applying it twice duplicates the
signature. -/
theorem c5_signature_augmentation (sig b title text : String) (body : Option String)
    (labels : List String) (profile : Profile) :
    augmentSignature sig none = sig ∧
    augmentSignature sig (some b) = sig ++ " " ++ b ∧
    (handleCreatePayload profile title body labels).title = title ∧
    (handleCreatePayload profile title body labels).body
      = some (augmentSignature profile.signature body) ∧
    (handleCreatePayload profile title body labels).labels = labels ∧
    handleCommentBody profile text = augmentSignature profile.signature (some text) ∧
    augmentSignature sig (some (augmentSignature sig (some b)))
      = sig ++ " " ++ (sig ++ " " ++ b) ∧
    augmentSignature sig (some (augmentSignature sig (some b)))
      ≠ augmentSignature sig (some b) := by
  refine ⟨rfl, rfl, rfl, rfl, rfl, rfl, rfl, ?_⟩
  intro h
  have hlen := congrArg String.length h
  simp only [augmentSignature, String.length_append] at hlen
  rw [show (" " : String).length = 1 from rfl] at hlen
  omega

/-! ### Claim C6 -/

/-- C6: for `issue label` / `issue unlabel`, if the repository label set
contains a name matching the request in any ASCII casing then resolution
to its numeric id succeeds (and exactly the corresponding mutating call
is issued); if no name matches, both commands fail with the
not-found error naming the requested label and issue no mutating call at
all. -/
theorem c6_label_resolution (repoLabels : List Label) (owner repo : String)
    (number : Int) (labelName : String) :
    ((∃ l ∈ repoLabels, lowercaseAscii l.name = lowercaseAscii labelName) →
      ∃ lab, findLabel repoLabels labelName = some lab ∧
        handleAddLabel repoLabels owner repo number labelName
          = (Except.ok (), [MutCall.addLabels owner repo number [lab.id]]) ∧
        handleRemoveLabel repoLabels owner repo number labelName
          = (Except.ok (), [MutCall.removeLabel owner repo number lab.id])) ∧
    ((∀ l ∈ repoLabels, lowercaseAscii l.name ≠ lowercaseAscii labelName) →
      handleAddLabel repoLabels owner repo number labelName
        = (Except.error ("Label '" ++ labelName ++ "' not found in repository"), []) ∧
      handleRemoveLabel repoLabels owner repo number labelName
        = (Except.error ("Label '" ++ labelName ++ "' not found in repository"), [])) := by
  constructor
  · rintro ⟨l, hl, heq⟩
    cases hf : findLabel repoLabels labelName with
    | some lab =>
      exact ⟨lab, rfl, by simp [handleAddLabel, hf], by simp [handleRemoveLabel, hf]⟩
    | none =>
      exfalso
      have hall := List.find?_eq_none.1 hf l hl
      rw [eqIgnoreAsciiCase_iff] at hall
      exact hall heq
  · intro hno
    have hf : findLabel repoLabels labelName = none := by
      apply List.find?_eq_none.2
      intro x hx
      rw [eqIgnoreAsciiCase_iff]
      exact hno x hx
    exact ⟨by simp [handleAddLabel, hf], by simp [handleRemoveLabel, hf]⟩

/-- Witness for C6 at concrete inputs: the label `Bug` resolves for the
request `BUG`; the request `missing` fails with the not-found error and
an empty mutating-call trace. -/
theorem c6_label_resolution_witness :
    (∃ lab, findLabel [labelBug] "BUG" = some lab ∧
      handleAddLabel [labelBug] "a" "r" 1 "BUG"
        = (Except.ok (), [MutCall.addLabels "a" "r" 1 [lab.id]]) ∧
      handleRemoveLabel [labelBug] "a" "r" 1 "BUG"
        = (Except.ok (), [MutCall.removeLabel "a" "r" 1 lab.id])) ∧
    handleAddLabel [labelBug] "a" "r" 1 "missing"
      = (Except.error ("Label '" ++ "missing" ++ "' not found in repository"), []) :=
  ⟨(c6_label_resolution [labelBug] "a" "r" 1 "BUG").1 ⟨labelBug, by decide, by decide⟩,
   ((c6_label_resolution [labelBug] "a" "r" 1 "missing").2 (by decide)).1⟩

/-! ### Claim C7

The claim says the process exit code is 2 for not-found-class errors.
`GogsError::exit_code` (error.rs) does map `NotFound` to 2, but `main`
(main.rs) never calls it: every error maps to `ExitCode::FAILURE`,
which is 1. -/

/-- C7 counterexample: for a `NotFound` error the process exit code is
1, not 2, even though the (never called) `GogsError::exit_code` method
returns 2 for it. -/
theorem c7_counterexample :
    (mainRun (Except.error (GogsError.notFound "x"))).1 = 1 ∧
    GogsError.exit_code (GogsError.notFound "x") = 2 ∧
    (mainRun (Except.error (GogsError.notFound "x"))).1 ≠ 2 :=
  ⟨rfl, rfl, by decide⟩

/-- C7 amended: the process exit code is 0 on success and 1 for every
failure (including not-found errors); the `GogsError::exit_code` method
maps `NotFound` to 2 and everything else to 1 but is never invoked by
`main`; diagnostics go to the error stream (one `Error: ...` line) and
primary output to the standard stream. -/
theorem c7_amended_exit_codes (out m : String) (e : GogsError) :
    mainRun (Except.ok out) = (0, out, "") ∧
    mainRun (Except.error e) = (1, "", "Error: " ++ errorMessage e ++ "\n") ∧
    GogsError.exit_code (GogsError.notFound m) = 2 ∧
    (GogsError.exit_code e = 1 ∨ GogsError.exit_code e = 2) := by
  refine ⟨rfl, rfl, rfl, ?_⟩
  cases e <;> simp [GogsError.exit_code]

/-! ### Claim C8

The claim says the final result preserves repository enumeration order
(restricted to surviving repositories).  The code sorts the merged
entries lexicographically by full name (line 137), so an enumeration
that is not already in lexicographic order is reordered. -/

/-- C8 counterexample: with enumeration order `["b/r", "a/r"]` (all
fetches succeeding), the final result order is `["a/r", "b/r"]`, which
differs from the enumeration order restricted to survivors. -/
theorem c8_counterexample :
    [repoB, repoA].map Repository.full_name = ["b/r", "a/r"] ∧
    (aggregate [] [repoB, repoA] outcomeAllEmpty).1.map Prod.fst = ["a/r", "b/r"] ∧
    (aggregate [] [repoB, repoA] outcomeAllEmpty).1.map Prod.fst
      ≠ [repoB, repoA].map Repository.full_name := by
  have h1 : (aggregate [] [repoB, repoA] outcomeAllEmpty).1
      = sortByName [("b/r", []), ("a/r", [])] := rfl
  have h2 : sortByName [("b/r", ([] : List Issue)), ("a/r", [])]
      = [("a/r", []), ("b/r", [])] := by
    simp [sortByName, List.mergeSort, List.merge]
    decide
  rw [h2] at h1
  refine ⟨by decide, by rw [h1]; rfl, by rw [h1]; decide⟩

/-- C8 amended: the final `AggregationResult` is the lexicographic
(stable) sort by full name of the entries collected in enumeration
order; it is independent of the task completion order, and it coincides
with the enumeration order exactly when the surviving full names are
already lexicographically sorted (as in the hypothesis here). -/
theorem c8_amended_sorted_output (labels : List String) (repos : List Repository)
    (outcome : Repository → TaskOutcome)
    (completed : List (Nat × (String × TaskOutcome)))
    (h : completed.Perm (indexedTasks repos outcome))
    (hsorted : (collectResults labels (spawnTasks repos outcome)).1.Pairwise
      (fun a b => a.1 ≤ b.1)) :
    (listAllFromCompletion labels repos completed).1
      = (collectResults labels (spawnTasks repos outcome)).1 ∧
    (listAllFromCompletion labels repos completed).1.Pairwise
      (fun a b => a.1 ≤ b.1) := by
  rw [listAllFromCompletion_eq_aggregate labels repos outcome completed h]
  refine ⟨?_, sortByName_sorted _⟩
  show sortByName _ = _
  unfold sortByName
  apply List.mergeSort_of_sorted
  exact hsorted.imp (fun hab => by simpa using hab)

/-- Witness for the amended C8 at a concrete input with an already
sorted enumeration and a reordered completion. -/
theorem c8_amended_witness :
    (listAllFromCompletion [] [repoA, repoB]
        [(1, ("b/r", TaskOutcome.ok [])), (0, ("a/r", TaskOutcome.ok []))]).1
      = (collectResults [] (spawnTasks [repoA, repoB] outcomeAllEmpty)).1 ∧
    (listAllFromCompletion [] [repoA, repoB]
        [(1, ("b/r", TaskOutcome.ok [])), (0, ("a/r", TaskOutcome.ok []))]).1.Pairwise
      (fun a b => a.1 ≤ b.1) :=
  c8_amended_sorted_output [] [repoA, repoB] outcomeAllEmpty
    [(1, ("b/r", TaskOutcome.ok [])), (0, ("a/r", TaskOutcome.ok []))]
    (by decide)
    (by
      have hc : (collectResults [] (spawnTasks [repoA, repoB] outcomeAllEmpty)).1
          = [("a/r", []), ("b/r", [])] := rfl
      rw [hc]
      simp only [List.pairwise_cons, List.not_mem_nil, false_implies, implies_true,
        List.Pairwise.nil, and_true, List.mem_singleton, forall_eq]
      rw [String.le_iff_toList_le]
      decide)

/-! ### Claim C9 -/

/-- C9: single-repository `issue list` renders through the same
`format_issue_list` function as the multi-repository case, applied to
the one-element list: its output equals the multi-repo rendering of the
one-element aggregation, in both the human and the JSON format. -/
theorem c9_single_repo_same_path (owner repoName : String) (labels : List String)
    (issues : List Issue) (format : OutputFormat) (r : Repository)
    (hname : r.full_name = owner ++ "/" ++ repoName) :
    handleListRepoRender owner repoName labels issues format
      = formatIssueList (aggregate labels [r] (fun _ => TaskOutcome.ok issues)).1 format := by
  have hagg : (aggregate labels [r] (fun _ => TaskOutcome.ok issues)).1
      = [(r.full_name, filterByLabels labels issues)] := by
    show sortByName [(r.full_name, filterByLabels labels issues)] = _
    simp [sortByName]
  rw [hagg, hname]
  rfl

/-- Witness for C9 at a concrete input. -/
theorem c9_single_repo_same_path_witness :
    handleListRepoRender "a" "r" [] [] OutputFormat.human
      = formatIssueList (aggregate [] [repoA] (fun _ => TaskOutcome.ok [])).1
          OutputFormat.human :=
  c9_single_repo_same_path "a" "r" [] [] OutputFormat.human repoA (by decide)

/-! ### Claim C10 -/

/-- C10: `parse_repo` returns `Ok((owner, name))` exactly when the
input splits on `/` into two parts, empty parts included: `"owner/"`
gives `("owner", "")` and `"/name"` gives `("", "name")`, while zero,
one or three-plus parts are rejected; `Config::get_repo` feeds the
explicitly given repository string straight into `parse_repo`. -/
theorem c10_parse_repo (s a b : String) (d : Option String) :
    (parseRepo s = Except.ok (a, b) ↔ splitOnSlash s = [a, b]) ∧
    parseRepo "owner/" = Except.ok ("owner", "") ∧
    parseRepo "/name" = Except.ok ("", "name") ∧
    parseRepo ""
      = Except.error ("Invalid repository format. Expected 'owner/repo', got '" ++ "" ++ "'") ∧
    parseRepo "a/b/c"
      = Except.error ("Invalid repository format. Expected 'owner/repo', got '" ++ "a/b/c" ++ "'") ∧
    getRepo d (some s) = parseRepo s := by
  refine ⟨?_, rfl, rfl, rfl, rfl, rfl⟩
  constructor
  · intro h
    unfold parseRepo at h
    rcases hsplit : splitOnSlash s with _ | ⟨x, _ | ⟨y, _ | ⟨z, rest⟩⟩⟩ <;>
      rw [hsplit] at h <;> simp_all
  · intro h
    unfold parseRepo
    rw [h]

end Goggles
